import Mathlib

/-!
Verification of the core opportunity pipeline of the 404botv2 repository.

The Python sources are shallowly embedded as executable Lean definitions:

* `utils/gas_price.py` : the gas-price oracle (`getOptimalGasPrice`,
  `estimateTransactionCost`, `isTransactionProfitable`), with the module-level
  cache made explicit as a `GasCache` value, machine floats modelled as exact
  rationals, and the network fetch modelled as an `Except`-valued input.
* `utils/profitability.py` : `calculateProfitability`.
* `core/event_bus.py` : subscriber table as a function from topic to the
  registration-ordered handler list (handlers are identified by numeric ids).
* `mev/flashbots.py` : `FlashbotsManager.submit_bundle`, with the two relay
  network calls modelled as `Except`-valued inputs (an exception inside the
  gathered coroutine, a timeout, or a non-200 response is an `Except.error`).
* `mev/mempool.py` : the websocket reconnect loop (`connectAndSubscribe` retry
  state) and the dedup / classification pipeline
  (`handleWebsocketMessage`, `processPendingBatch`), driven by an explicit
  event script.  The Python `set` of processed hashes is modelled as an
  insertion-ordered duplicate-free list.
* `utils/adaptive_parameters.py` : `AdaptiveParameters._update_parameters`.
-/

namespace Bot404

/-! ## Gas price oracle (`utils/gas_price.py`) -/

/-- Module-level cache of `gas_price.py`: `last_gas_price` (None or an int,
with Python truthiness: `0` also counts as unset) and `last_gas_update`. -/
structure GasCache where
  lastGasPrice : Option ℕ
  lastGasUpdate : ℚ
  deriving DecidableEq

/-- `GAS_PRICE_CACHE_TTL = 30` seconds. -/
def GAS_PRICE_CACHE_TTL : ℚ := 30

/-- Python sorts the collected fee samples with `list.sort()`; on natural
numbers the sorted permutation is unique, so insertion sort embeds it. -/
def sortSamples (samples : List ℕ) : List ℕ :=
  samples.insertionSort (· ≤ ·)

/-- Twice the value of `statistics.median` of an already sorted list
(kept doubled so that it stays a natural number for even lengths). -/
def medianTwice (s : List ℕ) : ℕ :=
  if s.length % 2 = 1 then 2 * s.getD ((s.length - 1) / 2) 0
  else s.getD (s.length / 2 - 1) 0 + s.getD (s.length / 2) 0

/-- Statistical branch of `get_optimal_gas_price` (at least 10 samples):
sort, pick the per-strategy percentile (`fast` the element at index
`int(n*0.9)`, `economic` at `int(n*0.25)`, otherwise the median), then apply
the 5% buffer `int(x * 1.05)`, i.e. the floor of `21*x/20`. -/
def statGasPrice (samples : List ℕ) (strategy : String) : ℕ :=
  let s := sortSamples samples
  let n := s.length
  if strategy = "fast" then 21 * s.getD (9 * n / 10) 0 / 20
  else if strategy = "economic" then 21 * s.getD (n / 4) 0 / 20
  else 21 * medianTwice s / 40

/-- Fallback branch of `get_optimal_gas_price` (fewer than 10 samples):
scale the node-reported price, `fast` by `1.2`, `economic` by `0.9`,
otherwise unchanged (`int` truncation on a nonnegative value is a floor). -/
def fallbackGasPrice (gasPrice : ℕ) (strategy : String) : ℕ :=
  if strategy = "fast" then 6 * gasPrice / 5
  else if strategy = "economic" then 9 * gasPrice / 10
  else gasPrice

/-- Uncached path of `get_optimal_gas_price`.  `fetch` stands for the
`w3.eth` queries: `Except.error` is any raised exception (the function then
returns the hard-coded 20 Gwei and leaves the cache untouched), `Except.ok`
carries the node gas price and the fee samples of the last 10 blocks.
The result is floored at 1 Gwei and stored in the cache. -/
def computeOptimalGasPrice (cache : GasCache) (now : ℚ) (strategy : String)
    (fetch : Except String (ℕ × List ℕ)) : ℕ × GasCache :=
  match fetch with
  | .error _ => (20 * 10 ^ 9, cache)
  | .ok (gasPrice, samples) =>
    let opt := if 10 ≤ samples.length then statGasPrice samples strategy
               else fallbackGasPrice gasPrice strategy
    let opt := max opt (10 ^ 9)
    (opt, ⟨some opt, now⟩)

/-- `get_optimal_gas_price(w3, strategy)`: if the cached value is truthy and
younger than the TTL it is returned unchanged, otherwise the price is
recomputed from `fetch`. -/
def getOptimalGasPrice (cache : GasCache) (now : ℚ) (strategy : String)
    (fetch : Except String (ℕ × List ℕ)) : ℕ × GasCache :=
  if cache.lastGasPrice.getD 0 ≠ 0 ∧ now - cache.lastGasUpdate < GAS_PRICE_CACHE_TTL then
    (cache.lastGasPrice.getD 0, cache)
  else computeOptimalGasPrice cache now strategy fetch

/-- `estimate_transaction_cost(w3, tx_params)`: `gasEstimate` stands for
`w3.eth.estimate_gas` (an exception there, or anywhere in the `try` block,
makes the function return `0.0`), `gasPrice` for the resolved gas price in
wei; the wei cost is converted to ETH by dividing by `10^18`. -/
def estimateTransactionCost (gasEstimate : Except String ℕ) (gasPrice : ℕ) : ℚ :=
  match gasEstimate with
  | .error _ => 0
  | .ok gas => ((gas * gasPrice : ℕ) : ℚ) / 10 ^ 18

/-- `is_transaction_profitable(w3, tx_params, expected_profit_eth)`:
profitable iff the expected profit strictly exceeds the estimated cost
multiplied by the 20% safety margin (`1.2 = 6/5`). -/
def isTransactionProfitable (gasEstimate : Except String ℕ) (gasPrice : ℕ)
    (expectedProfitEth : ℚ) : Bool :=
  let costEth := estimateTransactionCost gasEstimate gasPrice
  let costWithMargin := costEth * (6 / 5)
  decide (costWithMargin < expectedProfitEth)

/-- Modelled from the spec (section 4.4), for comparison with the code: the
claimed profitability gate accepts iff
`gross - margin * feeCost - loanPremium > threshold`, the threshold being
sourced from AdaptiveState. -/
def claimedProfitGate (gross feeCost margin loanPremium threshold : ℚ) : Bool :=
  decide (threshold < gross - margin * feeCost - loanPremium)

/-! ## Profitability analysis (`utils/profitability.py`) -/

/-- `calculate_profitability`: raw profit `(sell - buy) * quantity`, minus the
flash-loan fee (when applicable) and the gas cost in USD (`none` when neither
a pre-computed cost nor an estimate is available).  Returns
`(net_profit, profit_percentage, is_profitable)`. -/
def calculateProfitability (buyPrice sellPrice quantity : ℚ)
    (gasCostUsd : Option ℚ) (flashLoanFeePercentage : ℚ) (isFlashLoan : Bool) :
    ℚ × ℚ × Bool :=
  let rawProfit := (sellPrice - buyPrice) * quantity
  let totalCost := (if isFlashLoan then buyPrice * quantity * (flashLoanFeePercentage / 100) else 0)
    + gasCostUsd.getD 0
  let netProfit := rawProfit - totalCost
  let investment := buyPrice * quantity
  let profitPercentage := if 0 < investment then netProfit / investment * 100 else 0
  (netProfit, profitPercentage, decide (0 < netProfit))

/-! ## Event bus (`core/event_bus.py`) -/

/-- Subscriber table: topic name to the handler list in registration order.
Handlers are identified by numeric ids; a missing dict key is the empty
list. -/
def Subscribers : Type := String → List ℕ

/-- Fresh bus: `self.subscribers = {}`. -/
def emptyBus : Subscribers := fun _ => []

/-- `EventBus.subscribe`: create the topic entry if needed and append the
handler unless it is already registered. -/
def subscribeBus (s : Subscribers) (topic : String) (handler : ℕ) : Subscribers :=
  fun t => if t = topic then (if handler ∈ s topic then s topic else s topic ++ [handler]) else s t

/-- `EventBus.unsubscribe`: remove the first occurrence of the handler. -/
def unsubscribeBus (s : Subscribers) (topic : String) (handler : ℕ) : Subscribers :=
  fun t => if t = topic then (s topic).erase handler else s t

/-- `EventBus.publish`: every registered handler for the topic is invoked, in
registration order; a handler's exception is logged and does not stop the
others, so the invocation list is the whole subscriber list. -/
def publishBus (s : Subscribers) (topic : String) : List ℕ :=
  s topic

/-! ## Websocket reconnect loop (`mev/mempool.py`, `_connect_and_subscribe`) -/

/-- `max_retries = 10`. -/
def maxRetries : ℕ := 10

/-- State of the reconnect loop: the monitor `running` flag, the
`retry_count` and `retry_delay` locals, and the topics the loop has published
on the event bus (the exhaustion branch only logs, so nothing is ever
appended). -/
structure ConnState where
  running : Bool
  retryCount : ℕ
  retryDelay : ℕ
  publishedTopics : List String
  deriving DecidableEq

/-- Loop state when `_connect_and_subscribe` starts. -/
def connInit : ConnState := ⟨true, 0, 5, []⟩

/-- One connection failure (the `ConnectionClosed` / `InvalidStatusCode` /
`ConnectionRefusedError` handler): increment `retry_count`; if it exceeds
`max_retries`, log, clear `running` and leave the loop without sleeping;
otherwise sleep `retry_delay` seconds (the returned value) and double the
delay, capped at 60. -/
def connFailStep (st : ConnState) : ConnState × Option ℕ :=
  if st.running = false then (st, none)
  else if maxRetries < st.retryCount + 1 then
    ({ st with running := false, retryCount := st.retryCount + 1 }, none)
  else
    ({ st with retryCount := st.retryCount + 1,
               retryDelay := min (st.retryDelay * 2) 60 }, some st.retryDelay)

/-- Loop state after `n` consecutive connection failures, paired with the
sleep performed on the `n`-th failure (`none` when no sleep happened). -/
def connFailures : ℕ → ConnState × Option ℕ
  | 0 => (connInit, none)
  | n + 1 => connFailStep (connFailures n).1

/-! ## Flashbots bundle submission (`mev/flashbots.py`) -/

/-- A transaction as found in the `transactions` list of the bundle payload:
a dict with a `rawTransaction` entry, a plain hex string, or anything else
(for which `_submit_to_flashbots` raises `ValueError`). -/
inductive RawTx where
  | rawDict (rawTransaction : String)
  | hexStr (s : String)
  | unsupported
  deriving DecidableEq

/-- The tx-list conversion loop shared by `_submit_to_flashbots` and
`_submit_to_eden`: hex strings pass through, dicts contribute their
`rawTransaction`, anything else raises. -/
def convertTxList : List RawTx → Except String (List String)
  | [] => .ok []
  | .rawDict raw :: rest => (convertTxList rest).map (raw :: ·)
  | .hexStr s :: rest => (convertTxList rest).map (s :: ·)
  | .unsupported :: _ => .error "Unsupported transaction format"

/-- One relay submission as observed by `asyncio.gather(...,
return_exceptions=True)`: it fails if the tx list cannot be converted,
otherwise its outcome is the network's (`Except.error` covering timeouts and
non-200 responses, which `_submit_to_*` turns into raised `ValueError`s). -/
def submitToRelay (transactions : List RawTx) (network : Except String String) :
    Except String String :=
  match convertTxList transactions with
  | .error e => .error e
  | .ok _ => network

/-- The payload of one `bundle_submitted` event: each relay's response, or
`none` when that relay's submission ended in an exception. -/
structure BundleEvent where
  flashbotsResult : Option String
  edenResult : Option String
  targetBlock : ℕ
  deriving DecidableEq

/-- Manager state touched by `submit_bundle`: the `bundles_submitted` counter
and the published `bundle_submitted` events. -/
structure FlashbotsState where
  bundlesSubmitted : ℕ
  events : List BundleEvent
  deriving DecidableEq

/-- `FlashbotsManager.submit_bundle(data)`: an empty (or missing)
transaction list or a falsy target block logs and returns early; otherwise
both relay submissions are gathered, each exception is replaced by `None` in
the published event, the counter is incremented and the event appended.  The
whole body sits in a `try/except` that logs, so the embedded function always
returns `Except.ok`. -/
def submitBundle (st : FlashbotsState) (transactions : List RawTx)
    (targetBlock : Option ℕ) (flashbotsNet edenNet : Except String String) :
    Except String FlashbotsState :=
  if transactions = [] ∨ targetBlock.getD 0 = 0 then .ok st
  else
    let fbResult := submitToRelay transactions flashbotsNet
    let edenResult := submitToRelay transactions edenNet
    .ok { bundlesSubmitted := st.bundlesSubmitted + 1,
          events := st.events ++ [⟨fbResult.toOption, edenResult.toOption, targetBlock.getD 0⟩] }

/-! ## Mempool dedup and classification (`mev/mempool.py`) -/

/-- Monitor state touched by `_handle_websocket_message` and
`_process_pending_transactions`: `pending_txs` (dict keys, so insertion
ordered and duplicate free), `processed_txs` (a set, modelled as an
insertion-ordered duplicate-free list), the hashes published as
`interesting_transaction` events, the two counters, and a ghost counter of
how many times the over-10000 eviction fired. -/
structure MonitorState where
  pending : List ℕ
  processed : List ℕ
  published : List ℕ
  txCount : ℕ
  interestingTxCount : ℕ
  evictions : ℕ
  deriving DecidableEq

/-- Monitor state right after `start()`. -/
def monitorInit : MonitorState := ⟨[], [], [], 0, 0, 0⟩

/-- `_handle_websocket_message` on a subscription notification carrying
`txHash`: skip it if already processed, otherwise store it under its key in
`pending_txs` and bump `tx_count`. -/
def handleWebsocketMessage (st : MonitorState) (txHash : ℕ) : MonitorState :=
  if txHash ∈ st.processed then st
  else { st with
         pending := if txHash ∈ st.pending then st.pending else st.pending ++ [txHash],
         txCount := st.txCount + 1 }

/-- `processed_txs.add` over a batch (set insertion: duplicates are not
re-added). -/
def insertProcessed (processed : List ℕ) (batch : List ℕ) : List ℕ :=
  batch.foldl (fun acc h => if h ∈ acc then acc else acc ++ [h]) processed

/-- One iteration of `_process_pending_transactions`.  `classify h` models
`_process_transaction`: `none` when the transaction is no longer fetchable
(silently dropped), `some b` when fetched with `_is_interesting_transaction`
returning `b`.  Take up to 20 pending hashes; publish the interesting ones;
move the whole batch into `processed_txs`; if that set then holds more than
10000 entries, keep only the newest 5000. -/
def processPendingBatch (classify : ℕ → Option Bool) (st : MonitorState) : MonitorState :=
  if (st.pending.take 20).isEmpty then st
  else
    { pending := st.pending.drop 20,
      processed :=
        if 10000 < (insertProcessed st.processed (st.pending.take 20)).length then
          (insertProcessed st.processed (st.pending.take 20)).drop
            ((insertProcessed st.processed (st.pending.take 20)).length - 5000)
        else insertProcessed st.processed (st.pending.take 20),
      published := st.published ++ (st.pending.take 20).filter (fun h => (classify h).getD false),
      txCount := st.txCount,
      interestingTxCount := st.interestingTxCount +
        ((st.pending.take 20).filter (fun h => (classify h).getD false)).length,
      evictions :=
        if 10000 < (insertProcessed st.processed (st.pending.take 20)).length then
          st.evictions + 1
        else st.evictions }

/-- One observable event of the monitor: a feed notification or one
iteration of the classification loop. -/
inductive MonitorEvent where
  | obs (txHash : ℕ)
  | batch

/-- Step the monitor by one event. -/
def monitorStep (classify : ℕ → Option Bool) (st : MonitorState) :
    MonitorEvent → MonitorState
  | .obs h => handleWebsocketMessage st h
  | .batch => processPendingBatch classify st

/-- Run the monitor over a script of events from the initial state. -/
def monitorRun (classify : ℕ → Option Bool) (evs : List MonitorEvent) : MonitorState :=
  evs.foldl (monitorStep classify) monitorInit

/-- Invariant of the monitor state, for a fixed transaction hash `h`: the
dedup set stays within its cap, the pending keys are duplicate-free, and as
long as no eviction has fired, `h` has been published at most once, every
published hash is in the dedup set, and no hash sits in both the dedup set
and the pending queue. -/
def MonInv (h : ℕ) (st : MonitorState) : Prop :=
  st.processed.length ≤ 10000 ∧ st.pending.Nodup ∧
    (st.evictions = 0 →
      st.published.count h ≤ 1 ∧ (h ∈ st.published → h ∈ st.processed) ∧
        (h ∈ st.processed → h ∉ st.pending))

/-- One feed notification immediately followed by one classification
batch. -/
def obsBatch (x : ℕ) : List MonitorEvent := [.obs x, .batch]

/-- Feed `n` consecutive hashes starting at `lo`, classifying after each. -/
def freshFeed (lo n : ℕ) : List MonitorEvent :=
  (List.range' lo n).foldr (fun x acc => obsBatch x ++ acc) []

/-- A classifier under which every transaction is fetchable and
interesting. -/
def allInteresting : ℕ → Option Bool := fun _ => some true

/-- Script refuting the unconditional at-most-once claim: hash 0 is
observed and published, 10000 fresh hashes then overflow the dedup set
(evicting hash 0 with the oldest half), and a re-observation of hash 0 is
published a second time. -/
def c4Script : List MonitorEvent :=
  obsBatch 0 ++ (freshFeed 1 9999 ++ (obsBatch 10000 ++ obsBatch 0))

/-! ## Adaptive parameters (`utils/adaptive_parameters.py`) -/

/-- One entry of a strategy's `execution_history`. -/
structure ExecRecord where
  slippage : Option ℚ
  success : Bool
  profitExpected : ℚ
  profitRealized : Option ℚ

/-- Python `history[-20:]`. -/
def lastTwenty (history : List ExecRecord) : List ExecRecord :=
  history.drop (history.length - 20)

/-- Per-strategy average slippage over the recent history, skipping `None`
entries; `none` when no slippage data exists. -/
def stratAvgSlippage (history : List ExecRecord) : Option ℚ :=
  let xs := (lastTwenty history).filterMap (·.slippage)
  if xs.isEmpty then none else some (xs.sum / xs.length)

/-- Per-strategy success rate over the recent history. -/
def stratSuccessRate (history : List ExecRecord) : ℚ :=
  let recent := lastTwenty history
  ((recent.filter (·.success)).length : ℚ) / recent.length

/-- Per-strategy average profit-realization over the recent history
(`profit_realized / profit_expected`, or `0` on a non-positive expectation),
skipping records without a realized profit; `none` when no data exists. -/
def stratAvgProfitRealization (history : List ExecRecord) : Option ℚ :=
  let xs := (lastTwenty history).filterMap fun r =>
    r.profitRealized.map fun pr => if 0 < r.profitExpected then pr / r.profitExpected else 0
  if xs.isEmpty then none else some (xs.sum / xs.length)

/-- Mean of a list of rationals (empty lists never reach this in the code). -/
def meanOf (xs : List ℚ) : ℚ := xs.sum / xs.length

/-- The `all_slippages` list of `_update_parameters`: strategies with an
empty history are skipped, as are strategies without slippage data. -/
def allSlippages (histories : List (List ExecRecord)) : List ℚ :=
  (histories.filter (fun h => !h.isEmpty)).filterMap stratAvgSlippage

/-- The `all_success_rates` list of `_update_parameters`. -/
def allSuccessRates (histories : List (List ExecRecord)) : List ℚ :=
  (histories.filter (fun h => !h.isEmpty)).map stratSuccessRate

/-- The `all_profit_ratios` list of `_update_parameters`. -/
def allProfitRealizations (histories : List (List ExecRecord)) : List ℚ :=
  (histories.filter (fun h => !h.isEmpty)).filterMap stratAvgProfitRealization

/-- Mean recent observed slippage, averaged across strategies exactly as the
code does. -/
def meanRecentSlippage (histories : List (List ExecRecord)) : ℚ :=
  meanOf (allSlippages histories)

/-- Guard of the recompute: Python `if all_slippages and all_success_rates
and all_profit_ratios`. -/
def hasRecomputeData (histories : List (List ExecRecord)) : Bool :=
  !(allSlippages histories).isEmpty && !(allSuccessRates histories).isEmpty
    && !(allProfitRealizations histories).isEmpty

/-- `AdaptiveParameters._update_parameters`: from the per-strategy histories
compute the average slippage, success rate and profit realization, turn them
into multiplicative factors, combine them with the weights
`slippage 0.3 / recent_success 0.5 / profit_ratio 0.2`, scale the base
threshold and clamp to `[0.5*base, 3*base]`; set the slippage tolerance to
`1.5x` the average slippage clamped to `[0.5*base_tol, 3*base_tol]`.  With no
data the current values are kept.  Returns
`(min_profit_threshold, slippage_tolerance)`. -/
def updateParameters (baseThreshold baseTolerance curThreshold curTolerance : ℚ)
    (histories : List (List ExecRecord)) : ℚ × ℚ :=
  if hasRecomputeData histories then
    let avgSlippage := meanOf (allSlippages histories)
    let avgSuccessRate := meanOf (allSuccessRates histories)
    let avgProfitRealization := meanOf (allProfitRealizations histories)
    let slippageFactor := 1 + avgSlippage / 10
    let successFactor := 2 - avgSuccessRate
    let profitFactor := 1 + (1 - avgProfitRealization)
    let combinedFactor := (3 / 10) * slippageFactor + (1 / 2) * successFactor
      + (1 / 5) * profitFactor
    let newThreshold := baseThreshold * combinedFactor
    let minThreshold := baseThreshold * (1 / 2)
    let maxThreshold := baseThreshold * 3
    let threshold := max minThreshold (min newThreshold maxThreshold)
    let tolerance := avgSlippage * (3 / 2)
    let minSlippage := baseTolerance * (1 / 2)
    let maxSlippage := baseTolerance * 3
    (threshold, max minSlippage (min tolerance maxSlippage))
  else (curThreshold, curTolerance)

/-! ## Supporting lemmas -/

/-- Doubling distributes over the 60-second cap. -/
lemma min_double_cap (a : ℕ) : min (min a 60 * 2) 60 = min (a * 2) 60 := by
  omega

/-- The reconnect loop never publishes anything on the event bus. -/
lemma connFailures_topics (n : ℕ) : (connFailures n).1.publishedTopics = [] := by
  induction n with
  | zero => rfl
  | succ n ih =>
    show (connFailStep (connFailures n).1).1.publishedTopics = []
    unfold connFailStep
    split
    · exact ih
    · split <;> simpa using ih

/-- Within the retry budget, after `n` failures the loop is still running
with `retry_count = n` and `retry_delay = min (5 * 2 ^ n) 60`. -/
lemma connFailures_state (n : ℕ) (h : n ≤ maxRetries) :
    (connFailures n).1 = ⟨true, n, min (5 * 2 ^ n) 60, []⟩ := by
  induction n with
  | zero => rfl
  | succ n ih =>
    have hn : n ≤ maxRetries := Nat.le_of_succ_le h
    show (connFailStep (connFailures n).1).1 = _
    rw [ih hn]
    have hp : (5 : ℕ) * 2 ^ (n + 1) = 5 * 2 ^ n * 2 := by ring
    rw [hp]
    have hlt : ¬ (maxRetries < n + 1) := by omega
    generalize (5 : ℕ) * 2 ^ n = a
    unfold connFailStep
    simp only [hlt, if_false]
    simp
    omega

/-- Python `list.sort()` yields a sorted list. -/
lemma sortSamples_sorted (l : List ℕ) : (sortSamples l).Sorted (· ≤ ·) :=
  List.sorted_insertionSort _ l

/-- Sorting keeps the number of samples. -/
lemma sortSamples_length (l : List ℕ) : (sortSamples l).length = l.length :=
  (List.perm_insertionSort _ l).length_eq

/-- In a sorted list, entries grow with the index. -/
lemma sorted_getD_mono {s : List ℕ} (hs : s.Sorted (· ≤ ·)) {i j : ℕ}
    (hij : i ≤ j) (hj : j < s.length) : s.getD i 0 ≤ s.getD j 0 := by
  have hi : i < s.length := lt_of_le_of_lt hij hj
  rw [List.getD_eq_getElem?_getD, List.getElem?_eq_getElem hi,
    List.getD_eq_getElem?_getD, List.getElem?_eq_getElem hj]
  simpa using hs.rel_get_of_le (a := ⟨i, hi⟩) (b := ⟨j, hj⟩) hij

/-- On a sorted list of 10 or more samples, twice the 25th-percentile entry
is at most the doubled median. -/
lemma percentile25_le_medianTwice (s : List ℕ) (hs : s.Sorted (· ≤ ·))
    (hn : 10 ≤ s.length) :
    2 * s.getD (s.length / 4) 0 ≤ medianTwice s := by
  unfold medianTwice
  by_cases hpar : s.length % 2 = 1
  · rw [if_pos hpar]
    have h := sorted_getD_mono hs (i := s.length / 4) (j := (s.length - 1) / 2)
      (by omega) (by omega)
    omega
  · rw [if_neg hpar]
    have h1 := sorted_getD_mono hs (i := s.length / 4) (j := s.length / 2 - 1)
      (by omega) (by omega)
    have h2 := sorted_getD_mono hs (i := s.length / 4) (j := s.length / 2)
      (by omega) (by omega)
    omega

/-- On a sorted list of 10 or more samples, the doubled median is at most
twice the 90th-percentile entry. -/
lemma medianTwice_le_percentile90 (s : List ℕ) (hs : s.Sorted (· ≤ ·))
    (hn : 10 ≤ s.length) :
    medianTwice s ≤ 2 * s.getD (9 * s.length / 10) 0 := by
  unfold medianTwice
  by_cases hpar : s.length % 2 = 1
  · rw [if_pos hpar]
    have h := sorted_getD_mono hs (i := (s.length - 1) / 2) (j := 9 * s.length / 10)
      (by omega) (by omega)
    omega
  · rw [if_neg hpar]
    have h1 := sorted_getD_mono hs (i := s.length / 2 - 1) (j := 9 * s.length / 10)
      (by omega) (by omega)
    have h2 := sorted_getD_mono hs (i := s.length / 2) (j := 9 * s.length / 10)
      (by omega) (by omega)
    omega

/-- Branch of `statGasPrice` selected by the `fast` strategy. -/
lemma statGasPrice_fast_eq (samples : List ℕ) :
    statGasPrice samples "fast" =
      21 * (sortSamples samples).getD (9 * (sortSamples samples).length / 10) 0 / 20 := by
  unfold statGasPrice
  rw [if_pos rfl]

/-- Branch of `statGasPrice` selected by the `economic` strategy. -/
lemma statGasPrice_econ_eq (samples : List ℕ) :
    statGasPrice samples "economic" =
      21 * (sortSamples samples).getD ((sortSamples samples).length / 4) 0 / 20 := by
  unfold statGasPrice
  rw [if_neg (by decide), if_pos rfl]

/-- Branch of `statGasPrice` selected by the default `balanced` strategy. -/
lemma statGasPrice_bal_eq (samples : List ℕ) :
    statGasPrice samples "balanced" = 21 * medianTwice (sortSamples samples) / 40 := by
  unfold statGasPrice
  rw [if_neg (by decide), if_neg (by decide)]

/-- A cold-cache call with at least 10 fee samples takes the statistical
path and floors the result at 1 Gwei. -/
lemma getOptimalGasPrice_cold (now : ℚ) (strategy : String) (gasPrice : ℕ)
    (samples : List ℕ) (h10 : 10 ≤ samples.length) :
    (getOptimalGasPrice ⟨none, 0⟩ now strategy (.ok (gasPrice, samples))).1 =
      max (statGasPrice samples strategy) (10 ^ 9) := by
  unfold getOptimalGasPrice computeOptimalGasPrice
  simp [h10]

/-- Set insertion of a batch only appends: the existing entries stay as a
prefix, membership is the union, and the length grows by at most the batch
size. -/
lemma insertProcessed_spec (b : List ℕ) : ∀ p : List ℕ,
    (∃ t, insertProcessed p b = p ++ t) ∧
    (∀ x, x ∈ insertProcessed p b ↔ x ∈ p ∨ x ∈ b) ∧
    (insertProcessed p b).length ≤ p.length + b.length := by
  induction b with
  | nil =>
    intro p
    refine ⟨⟨[], by simp [insertProcessed]⟩, ?_, ?_⟩ <;> simp [insertProcessed]
  | cons y rest ih =>
    intro p
    have hstep : insertProcessed p (y :: rest) =
        insertProcessed (if y ∈ p then p else p ++ [y]) rest := rfl
    by_cases hy : y ∈ p
    · rw [hstep, if_pos hy]
      obtain ⟨⟨t, ht⟩, hmem, hlen⟩ := ih p
      refine ⟨⟨t, ht⟩, ?_, by simp only [List.length_cons]; omega⟩
      intro x
      rw [hmem x]
      constructor
      · rintro (hx | hx)
        · exact Or.inl hx
        · exact Or.inr (List.mem_cons_of_mem _ hx)
      · rintro (hx | hx)
        · exact Or.inl hx
        · rcases List.mem_cons.mp hx with rfl | hx
          · exact Or.inl hy
          · exact Or.inr hx
    · rw [hstep, if_neg hy]
      obtain ⟨⟨t, ht⟩, hmem, hlen⟩ := ih (p ++ [y])
      refine ⟨⟨[y] ++ t, by rw [← List.append_assoc]; exact ht⟩, ?_, ?_⟩
      · intro x
        rw [hmem x]
        simp only [List.mem_append, List.mem_cons, List.mem_singleton]
        tauto
      · simp only [List.length_append, List.length_cons, List.length_nil] at hlen ⊢
        omega

/-- Dropping from an arithmetic progression shifts its start. -/
lemma drop_range' : ∀ (n k s : ℕ), (List.range' s n).drop k = List.range' (s + k) (n - k) := by
  intro n
  induction n with
  | zero => intro k s; simp
  | succ n ih =>
    intro k s
    cases k with
    | zero => simp
    | succ k =>
      rw [List.range'_succ s n 1]
      show (List.range' (s + 1) n).drop k = _
      rw [ih k (s + 1)]
      congr 1 <;> omega

/-- The invariant holds initially. -/
lemma monInv_init (h : ℕ) : MonInv h monitorInit := by
  refine ⟨?_, ?_, fun _ => ⟨?_, ?_, ?_⟩⟩ <;> simp [monitorInit, MonInv]

/-- A feed notification preserves the invariant. -/
lemma monInv_obs (h x : ℕ) (st : MonitorState) (hi : MonInv h st) :
    MonInv h (handleWebsocketMessage st x) := by
  unfold handleWebsocketMessage
  by_cases hx : x ∈ st.processed
  · rwa [if_pos hx]
  · rw [if_neg hx]
    obtain ⟨hlen, hnd, hcond⟩ := hi
    refine ⟨hlen, ?_, fun hev => ⟨(hcond hev).1, fun hp => (hcond hev).2.1 hp, fun hp => ?_⟩⟩
    · show (if x ∈ st.pending then st.pending else st.pending ++ [x]).Nodup
      by_cases hxp : x ∈ st.pending
      · rwa [if_pos hxp]
      · rw [if_neg hxp]
        exact List.nodup_append.mpr ⟨hnd, List.nodup_singleton x, by simpa using hxp⟩
    · show h ∉ (if x ∈ st.pending then st.pending else st.pending ++ [x])
      have hhp : h ∉ st.pending := (hcond hev).2.2 hp
      by_cases hxp : x ∈ st.pending
      · rwa [if_pos hxp]
      · rw [if_neg hxp]
        intro hmem
        rcases List.mem_append.mp hmem with hmem | hmem
        · exact hhp hmem
        · rw [List.mem_singleton] at hmem
          exact hx (hmem ▸ hp)

/-- A classification batch preserves the invariant. -/
lemma monInv_batch (classify : ℕ → Option Bool) (h : ℕ) (st : MonitorState)
    (hi : MonInv h st) : MonInv h (processPendingBatch classify st) := by
  unfold processPendingBatch
  by_cases hb : (st.pending.take 20).isEmpty
  · rwa [if_pos hb]
  · rw [if_neg hb]
    obtain ⟨hlen, hnd, hcond⟩ := hi
    obtain ⟨⟨t, ht⟩, hmem, hmlen⟩ := insertProcessed_spec (st.pending.take 20) st.processed
    refine ⟨?_, ?_, fun hev => ?_⟩
    · show (if 10000 < (insertProcessed st.processed (st.pending.take 20)).length then _
        else _ : List ℕ).length ≤ 10000
      by_cases hevict : 10000 < (insertProcessed st.processed (st.pending.take 20)).length
      · rw [if_pos hevict]
        rw [List.length_drop]
        omega
      · rw [if_neg hevict]
        omega
    · exact hnd.sublist (List.drop_sublist 20 st.pending)
    · have hev' : (if 10000 < (insertProcessed st.processed (st.pending.take 20)).length then
          st.evictions + 1 else st.evictions) = 0 := hev
      by_cases hevict : 10000 < (insertProcessed st.processed (st.pending.take 20)).length
      · exfalso
        rw [if_pos hevict] at hev'
        omega
      · have hev0 : st.evictions = 0 := by
          rwa [if_neg hevict] at hev'
        obtain ⟨hc1, hc2, hc3⟩ := hcond hev0
        rw [if_neg hevict]
        refine ⟨?_, ?_, ?_⟩
        · show (st.published ++ (st.pending.take 20).filter
            (fun y => (classify y).getD false)).count h ≤ 1
          rw [List.count_append]
          by_cases hpub : h ∈ st.published
          · have hproc := hc2 hpub
            have hnp := hc3 hproc
            have hnb : h ∉ st.pending.take 20 := fun hm => hnp (List.take_subset _ _ hm)
            have hnf : h ∉ (st.pending.take 20).filter (fun y => (classify y).getD false) :=
              fun hm => hnb (List.mem_filter.mp hm).1
            rw [List.count_eq_zero_of_not_mem hnf]
            omega
          · rw [List.count_eq_zero_of_not_mem hpub]
            have hbn : (st.pending.take 20).Nodup := hnd.sublist (List.take_sublist 20 st.pending)
            have hfn := hbn.filter (fun y => (classify y).getD false)
            have := List.nodup_iff_count_le_one.mp hfn h
            omega
        · intro hp
          rcases List.mem_append.mp hp with hp | hp
          · exact (hmem h).mpr (Or.inl (hc2 hp))
          · exact (hmem h).mpr (Or.inr (List.mem_filter.mp hp).1)
        · intro hp hq
          rcases (hmem h).mp hp with hp | hp
          · exact hc3 hp (List.drop_subset _ _ hq)
          · have hdisj : List.Disjoint (st.pending.take 20) (st.pending.drop 20) := by
              have hnd2 := (List.take_append_drop 20 st.pending) ▸ hnd
              exact (List.nodup_append.mp hnd2).2.2
            exact hdisj hp hq

/-- The invariant is preserved along any run. -/
lemma monInv_run (classify : ℕ → Option Bool) (h : ℕ) :
    ∀ (evs : List MonitorEvent) (st : MonitorState),
      MonInv h st → MonInv h (evs.foldl (monitorStep classify) st) := by
  intro evs
  induction evs with
  | nil => intro st hst; exact hst
  | cons e rest ih =>
    intro st hst
    rw [List.foldl_cons]
    apply ih
    cases e with
    | obs x => exact monInv_obs h x st hst
    | batch => exact monInv_batch classify h st hst

/-- A classification batch over a single fresh interesting hash: the hash is
published, moved into the dedup set, and the oldest half is evicted exactly
when the set passed 10000 entries. -/
lemma processPendingBatch_singleton (classify : ℕ → Option Bool) (st : MonitorState)
    (x : ℕ) (hp : st.pending = [x]) (hx : x ∉ st.processed)
    (hc : (classify x).getD false = true) :
    processPendingBatch classify st =
      if 10000 < st.processed.length + 1 then
        { pending := [], processed := (st.processed ++ [x]).drop (st.processed.length + 1 - 5000),
          published := st.published ++ [x], txCount := st.txCount,
          interestingTxCount := st.interestingTxCount + 1, evictions := st.evictions + 1 }
      else
        { pending := [], processed := st.processed ++ [x], published := st.published ++ [x],
          txCount := st.txCount, interestingTxCount := st.interestingTxCount + 1,
          evictions := st.evictions } := by
  have hmid : insertProcessed st.processed [x] = st.processed ++ [x] := by
    unfold insertProcessed
    simp [hx]
  have hfil : ([x] : List ℕ).filter (fun y => (classify y).getD false) = [x] := by
    simp [List.filter_cons, hc]
  unfold processPendingBatch
  rw [hp]
  have ht20 : ([x] : List ℕ).take 20 = [x] := rfl
  have hd20 : ([x] : List ℕ).drop 20 = [] := rfl
  rw [ht20, hd20, hmid, hfil]
  rw [if_neg (by simp : ¬ (([x] : List ℕ).isEmpty = true))]
  have hlen1 : (st.processed ++ [x]).length = st.processed.length + 1 := by simp
  rw [hlen1]
  by_cases hcond : 10000 < st.processed.length + 1
  · rw [if_pos hcond, if_pos hcond, if_pos hcond]
    rfl
  · rw [if_neg hcond, if_neg hcond, if_neg hcond]
    rfl

/-- Observing one fresh hash and classifying it, below the cap: the hash is
appended to the dedup set and published, with no eviction. -/
lemma foldl_obsBatch_fresh (st : MonitorState) (x : ℕ) (hp : st.pending = [])
    (hx : x ∉ st.processed) (hlen : st.processed.length + 1 ≤ 10000) :
    (obsBatch x).foldl (monitorStep allInteresting) st =
      ⟨[], st.processed ++ [x], st.published ++ [x], st.txCount + 1,
        st.interestingTxCount + 1, st.evictions⟩ := by
  have h1 : monitorStep allInteresting st (.obs x) =
      { st with pending := [x], txCount := st.txCount + 1 } := by
    show handleWebsocketMessage st x = _
    unfold handleWebsocketMessage
    rw [if_neg hx, hp]
    simp
  show List.foldl (monitorStep allInteresting) st [.obs x, .batch] = _
  rw [List.foldl_cons, h1, List.foldl_cons, List.foldl_nil]
  show processPendingBatch allInteresting
    ⟨[x], st.processed, st.published, st.txCount + 1, st.interestingTxCount, st.evictions⟩ = _
  rw [processPendingBatch_singleton allInteresting
    ⟨[x], st.processed, st.published, st.txCount + 1, st.interestingTxCount, st.evictions⟩
    x rfl hx rfl]
  dsimp only
  rw [if_neg (by omega : ¬ (10000 < st.processed.length + 1))]

/-- Observing one fresh hash and classifying it, at the cap: the hash is
published and the dedup set is trimmed to its newest 5000 entries. -/
lemma foldl_obsBatch_evict (st : MonitorState) (x : ℕ) (hp : st.pending = [])
    (hx : x ∉ st.processed) (hlen : 10000 < st.processed.length + 1) :
    (obsBatch x).foldl (monitorStep allInteresting) st =
      ⟨[], (st.processed ++ [x]).drop (st.processed.length + 1 - 5000), st.published ++ [x],
        st.txCount + 1, st.interestingTxCount + 1, st.evictions + 1⟩ := by
  have h1 : monitorStep allInteresting st (.obs x) =
      { st with pending := [x], txCount := st.txCount + 1 } := by
    show handleWebsocketMessage st x = _
    unfold handleWebsocketMessage
    rw [if_neg hx, hp]
    simp
  show List.foldl (monitorStep allInteresting) st [.obs x, .batch] = _
  rw [List.foldl_cons, h1, List.foldl_cons, List.foldl_nil]
  show processPendingBatch allInteresting
    ⟨[x], st.processed, st.published, st.txCount + 1, st.interestingTxCount, st.evictions⟩ = _
  rw [processPendingBatch_singleton allInteresting
    ⟨[x], st.processed, st.published, st.txCount + 1, st.interestingTxCount, st.evictions⟩
    x rfl hx rfl]
  dsimp only
  rw [if_pos hlen]

/-- Unfolding one step of `freshFeed`. -/
lemma freshFeed_succ (lo n : ℕ) : freshFeed lo (n + 1) = obsBatch lo ++ freshFeed (lo + 1) n := by
  unfold freshFeed
  rw [List.range'_succ lo n 1]
  rfl

/-- Feeding `n` fresh hashes one at a time, with room in the dedup set:
every one of them is published once and appended to the dedup set in
order. -/
lemma foldl_freshFeed : ∀ (n lo : ℕ) (st : MonitorState), st.pending = [] →
    (∀ y, lo ≤ y → y < lo + n → y ∉ st.processed) →
    st.processed.length + n ≤ 10000 →
    (freshFeed lo n).foldl (monitorStep allInteresting) st =
      ⟨[], st.processed ++ List.range' lo n, st.published ++ List.range' lo n,
        st.txCount + n, st.interestingTxCount + n, st.evictions⟩ := by
  intro n
  induction n with
  | zero =>
    intro lo st hp hf hl
    show List.foldl _ st (freshFeed lo 0) = _
    rw [show freshFeed lo 0 = [] from rfl, List.foldl_nil]
    cases st
    simp_all
  | succ n ih =>
    intro lo st hp hf hl
    rw [freshFeed_succ, List.foldl_append]
    rw [foldl_obsBatch_fresh st lo hp (hf lo le_rfl (by omega)) (by omega)]
    have hfr : ∀ y, lo + 1 ≤ y → y < lo + 1 + n →
        y ∉ (⟨[], st.processed ++ [lo], st.published ++ [lo], st.txCount + 1,
          st.interestingTxCount + 1, st.evictions⟩ : MonitorState).processed := by
      intro y h1 h2 hymem
      rcases List.mem_append.mp hymem with hy | hy
      · exact hf y (by omega) (by omega) hy
      · rw [List.mem_singleton] at hy
        omega
    have hll : (⟨[], st.processed ++ [lo], st.published ++ [lo], st.txCount + 1,
        st.interestingTxCount + 1, st.evictions⟩ : MonitorState).processed.length + n ≤ 10000 := by
      simp only [List.length_append, List.length_cons, List.length_nil]
      omega
    rw [ih (lo + 1) _ rfl hfr hll]
    rw [List.range'_succ lo n 1]
    rw [List.append_assoc, List.append_assoc]
    simp only [Nat.add_assoc, Nat.add_comm 1 n]
    rfl

/-! ## Claims -/

/-- C1 (counterexample): at the spec's own test point
(`gross = 10`, `fee = 2`, `margin = 1.2`, `loan_premium = 0`,
`threshold = 8`) the claimed gate rejects, while the code's gate — which
takes no threshold and no loan premium at all — accepts: the code compares
the expected profit against `1.2 *` cost only.  A gas estimate of `2e9` at
`1e9` wei makes the estimated cost exactly 2 ETH. -/
theorem C1_counterexample :
    Bot404.claimedProfitGate 10 2 (6 / 5) 0 8 = false ∧
    Bot404.estimateTransactionCost (.ok (2 * 10 ^ 9)) (10 ^ 9) = 2 ∧
    Bot404.isTransactionProfitable (.ok (2 * 10 ^ 9)) (10 ^ 9) 10 = true := by
  refine ⟨?_, ?_, ?_⟩
  · unfold Bot404.claimedProfitGate
    rw [decide_eq_false_iff_not]
    norm_num
  · show ((2 * 10 ^ 9 * 10 ^ 9 : ℕ) : ℚ) / 10 ^ 18 = 2
    norm_num
  · show decide (Bot404.estimateTransactionCost (.ok (2 * 10 ^ 9)) (10 ^ 9) * (6 / 5) < 10) = true
    rw [decide_eq_true_iff]
    show ((2 * 10 ^ 9 * 10 ^ 9 : ℕ) : ℚ) / 10 ^ 18 * (6 / 5) < 10
    norm_num

/-- C1 (amended): `is_transaction_profitable` accepts iff the expected
profit minus the safety-margin-multiplied cost (margin 1.2) is strictly
positive; the comparison threshold is the constant zero — no loan premium
and no AdaptiveState threshold enter the verdict. -/
theorem C1_profit_gate_amended (gasEstimate : Except String ℕ) (gasPrice : ℕ)
    (expected : ℚ) :
    Bot404.isTransactionProfitable gasEstimate gasPrice expected = true ↔
      0 < expected - (6 / 5) * Bot404.estimateTransactionCost gasEstimate gasPrice := by
  unfold Bot404.isTransactionProfitable
  rw [decide_eq_true_iff]
  constructor <;> intro h <;> linarith

/-- C2: bundle submission is total: the embedded `submit_bundle` always
returns `Except.ok` (so a per-endpoint failure is never propagated, and a
raise can only happen where the request cannot be constructed — which the
outer handler also absorbs), and whenever the request is constructible the
submitted counter is incremented by one and the single published
`bundle_submitted` event carries both endpoints' outcomes, an errored
endpoint reported as `none`. -/
theorem C2_submit_bundle (st : Bot404.FlashbotsState) (txs : List Bot404.RawTx)
    (targetBlock : Option ℕ) (flashbotsNet edenNet : Except String String) :
    (Bot404.submitBundle st txs targetBlock flashbotsNet edenNet).isOk = true ∧
    (txs ≠ [] → targetBlock.getD 0 ≠ 0 →
      Bot404.submitBundle st txs targetBlock flashbotsNet edenNet =
        .ok { bundlesSubmitted := st.bundlesSubmitted + 1,
              events := st.events ++ [⟨(Bot404.submitToRelay txs flashbotsNet).toOption,
                (Bot404.submitToRelay txs edenNet).toOption, targetBlock.getD 0⟩] }) := by
  constructor
  · unfold Bot404.submitBundle
    split <;> rfl
  · intro htx htb
    unfold Bot404.submitBundle
    rw [if_neg]
    simp [htx, htb]

/-- C2 (witness): a concrete constructible submission against one succeeding
and one timing-out relay increments the counter and records `some`/`none`. -/
theorem C2_witness :
    ([Bot404.RawTx.hexStr "0x02f8"] ≠ ([] : List Bot404.RawTx)) ∧
    ((some 123 : Option ℕ).getD 0 ≠ 0) ∧
    (Bot404.submitBundle ⟨3, []⟩ [Bot404.RawTx.hexStr "0x02f8"] (some 123)
      (.ok "bundleHash") (.error "timeout")).isOk = true ∧
    Bot404.submitBundle ⟨3, []⟩ [Bot404.RawTx.hexStr "0x02f8"] (some 123)
      (.ok "bundleHash") (.error "timeout") = .ok ⟨4, [⟨some "bundleHash", none, 123⟩]⟩ := by
  refine ⟨by simp, by simp, (C2_submit_bundle _ _ _ _ _).1, ?_⟩
  have h := (C2_submit_bundle ⟨3, []⟩ [Bot404.RawTx.hexStr "0x02f8"] (some 123)
    (.ok "bundleHash") (.error "timeout")).2 (by simp) (by simp)
  simpa [Bot404.submitToRelay, Bot404.convertTxList, Except.toOption] using h

/-- C3 (counterexample): the gas-price cache is one shared value, not one
per tier.  With a cold cache and the fallback path (node price 10 Gwei, no
samples) a `fast` request computes and caches 12 Gwei; an `economic` request
10 seconds later is served that cached 12 Gwei, although a fresh `economic`
computation over the same data yields 9 Gwei. -/
theorem C3_counterexample :
    (Bot404.getOptimalGasPrice ⟨none, 0⟩ 0 "fast" (.ok (10 * 10 ^ 9, []))).1 = 12 * 10 ^ 9 ∧
    (Bot404.getOptimalGasPrice (Bot404.getOptimalGasPrice ⟨none, 0⟩ 0 "fast"
        (.ok (10 * 10 ^ 9, []))).2 10 "economic" (.ok (10 * 10 ^ 9, []))).1 = 12 * 10 ^ 9 ∧
    (Bot404.getOptimalGasPrice ⟨none, 0⟩ 10 "economic" (.ok (10 * 10 ^ 9, []))).1 = 9 * 10 ^ 9 ∧
    (12 * 10 ^ 9 : ℕ) ≠ 9 * 10 ^ 9 := by
  refine ⟨?_, ?_, ?_, by norm_num⟩ <;>
    norm_num [Bot404.getOptimalGasPrice, Bot404.computeOptimalGasPrice,
      Bot404.fallbackGasPrice, Bot404.GAS_PRICE_CACHE_TTL] <;> decide

/-- C3 (amended): the cache is a single shared value for all tiers: whenever
the cached price is set (truthy) and younger than the TTL, a request for any
tier returns it unchanged, with no recomputation and no I/O (the result does
not depend on the `fetch` argument and the cache state is untouched) — even
if the cached value was computed for a different tier. -/
theorem C3_cache_amended (cache : Bot404.GasCache) (now : ℚ) (strategy : String)
    (fetch : Except String (ℕ × List ℕ)) (p : ℕ) (hp : cache.lastGasPrice = some p)
    (hpz : p ≠ 0) (hfresh : now - cache.lastGasUpdate < Bot404.GAS_PRICE_CACHE_TTL) :
    Bot404.getOptimalGasPrice cache now strategy fetch = (p, cache) := by
  unfold Bot404.getOptimalGasPrice
  rw [hp]
  exact if_pos ⟨by simpa using hpz, hfresh⟩

/-- C3 (witness): a 5-second-old cached 7 wei price is returned for a `fast`
request even though the fetch would fail. -/
theorem C3_cache_witness :
    (Bot404.GasCache.mk (some 7) 0).lastGasPrice = some 7 ∧ (7 : ℕ) ≠ 0 ∧
    ((5 : ℚ) - (Bot404.GasCache.mk (some 7) 0).lastGasUpdate < Bot404.GAS_PRICE_CACHE_TTL) ∧
    Bot404.getOptimalGasPrice ⟨some 7, 0⟩ 5 "fast" (.error "node down") = (7, ⟨some 7, 0⟩) :=
  ⟨rfl, by norm_num, by norm_num [Bot404.GAS_PRICE_CACHE_TTL],
    C3_cache_amended ⟨some 7, 0⟩ 5 "fast" (.error "node down") 7 rfl (by norm_num)
      (by norm_num [Bot404.GAS_PRICE_CACHE_TTL])⟩

/-- C5 (counterexample): the wait after the first connection failure is the
base delay of 5 seconds, not `min(base * 2 ^ 1, cap) = 10` as the claim
states: the code sleeps the current `retry_delay` and only then doubles
it. -/
theorem C5_counterexample :
    (Bot404.connFailures 1).2 = some 5 ∧
    (Bot404.connFailures 1).2 ≠ some (min (5 * 2 ^ 1) 60) := by
  decide

/-- C5 (amended): for every `N` between 1 and the retry maximum, the wait
before connection attempt `N + 1` — the sleep performed on the `N`-th
consecutive failure — equals `min(base * 2 ^ (N - 1), cap)` with base 5s and
cap 60s. -/
theorem C5_backoff_amended (n : ℕ) (h1 : 1 ≤ n) (h2 : n ≤ Bot404.maxRetries) :
    (Bot404.connFailures n).2 = some (min (5 * 2 ^ (n - 1)) 60) := by
  obtain ⟨m, rfl⟩ : ∃ m, n = m + 1 := ⟨n - 1, by omega⟩
  show (Bot404.connFailStep (Bot404.connFailures m).1).2 = _
  rw [Bot404.connFailures_state m (Nat.le_of_succ_le h2)]
  unfold Bot404.connFailStep
  have hlt : ¬ (Bot404.maxRetries < m + 1) := by omega
  simp [hlt]

/-- C5 (witness): the third failure sleeps `min(5 * 2 ^ 2, 60) = 20`
seconds. -/
theorem C5_backoff_witness :
    (1 ≤ 3) ∧ (3 ≤ Bot404.maxRetries) ∧
    (Bot404.connFailures 3).2 = some (min (5 * 2 ^ (3 - 1)) 60) :=
  ⟨by norm_num, by decide, C5_backoff_amended 3 (by norm_num) (by decide)⟩

/-- C6 (counterexample): when the retry maximum is exceeded (the 11th
consecutive failure) the monitor does stop, but it only logs: no `error`
event — indeed no event at all — is published on the event bus, contrary to
the claim. -/
theorem C6_counterexample :
    (Bot404.connFailures 11).1.running = false ∧
    "error" ∉ (Bot404.connFailures 11).1.publishedTopics := by
  decide

/-- C6 (amended): once the consecutive-failure count exceeds `max_retries`
the monitor permanently stops retrying (`running` is cleared and stays
cleared), and it reports the exhaustion only through its logger — the
reconnect loop never publishes any event, `error` or otherwise, on the event
bus. -/
theorem C6_exhaustion_amended (n : ℕ) (h : Bot404.maxRetries < n) :
    (Bot404.connFailures n).1.running = false ∧
    (Bot404.connFailures n).1.publishedTopics = [] := by
  refine ⟨?_, Bot404.connFailures_topics n⟩
  induction n with
  | zero => exact absurd h (by simp)
  | succ n ih =>
    show (Bot404.connFailStep (Bot404.connFailures n).1).1.running = false
    rcases Nat.lt_or_ge Bot404.maxRetries n with hn | hn
    · have hr := ih hn
      unfold Bot404.connFailStep
      simp [hr]
    · have hn' : n = Bot404.maxRetries := by omega
      rw [hn', Bot404.connFailures_state Bot404.maxRetries le_rfl]
      unfold Bot404.connFailStep
      simp [Bot404.maxRetries]

/-- C6 (witness): after 11 straight failures the monitor has stopped and the
bus saw nothing. -/
theorem C6_exhaustion_witness :
    (Bot404.maxRetries < 11) ∧
    (Bot404.connFailures 11).1.running = false ∧
    (Bot404.connFailures 11).1.publishedTopics = [] :=
  ⟨by decide, (C6_exhaustion_amended 11 (by decide)).1, (C6_exhaustion_amended 11 (by decide)).2⟩

/-- C9: subscribing the same handler twice to the same topic is the same
subscriber table as subscribing it once, and a publish on that topic then
invokes the handler exactly one time (for any table whose handler list for
the topic is duplicate-free, as every table built by `subscribe` is). -/
theorem C9_subscribe_idempotent (s : Bot404.Subscribers) (topic : String) (handler : ℕ)
    (hnd : (s topic).Nodup) :
    Bot404.subscribeBus (Bot404.subscribeBus s topic handler) topic handler =
      Bot404.subscribeBus s topic handler ∧
    (Bot404.publishBus (Bot404.subscribeBus (Bot404.subscribeBus s topic handler)
      topic handler) topic).count handler = 1 := by
  have hS : Bot404.subscribeBus s topic handler topic =
      (if handler ∈ s topic then s topic else s topic ++ [handler]) := by
    unfold Bot404.subscribeBus
    exact if_pos rfl
  have hmem : handler ∈ Bot404.subscribeBus s topic handler topic := by
    rw [hS]
    by_cases hm : handler ∈ s topic <;> simp [hm]
  have hone : Bot404.subscribeBus (Bot404.subscribeBus s topic handler) topic handler =
      Bot404.subscribeBus s topic handler := by
    funext t
    show (if t = topic then
      (if handler ∈ Bot404.subscribeBus s topic handler topic then
        Bot404.subscribeBus s topic handler topic
      else Bot404.subscribeBus s topic handler topic ++ [handler])
      else Bot404.subscribeBus s topic handler t) = Bot404.subscribeBus s topic handler t
    by_cases ht : t = topic
    · rw [ht, if_pos rfl, if_pos hmem]
    · rw [if_neg ht]
  refine ⟨hone, ?_⟩
  rw [hone]
  show (Bot404.subscribeBus s topic handler topic).count handler = 1
  rw [hS]
  by_cases hm : handler ∈ s topic
  · rw [if_pos hm]
    exact List.count_eq_one_of_mem hnd hm
  · rw [if_neg hm, List.count_append]
    simp [List.count_eq_zero_of_not_mem hm]

/-- C9 (witness): on a fresh bus, double subscription of handler 7 to
`trade_executed` collapses to a single registration and one invocation. -/
theorem C9_subscribe_witness :
    (Bot404.emptyBus "trade_executed").Nodup ∧
    (Bot404.subscribeBus (Bot404.subscribeBus Bot404.emptyBus "trade_executed" 7)
        "trade_executed" 7 =
      Bot404.subscribeBus Bot404.emptyBus "trade_executed" 7 ∧
    (Bot404.publishBus (Bot404.subscribeBus (Bot404.subscribeBus Bot404.emptyBus
      "trade_executed" 7) "trade_executed" 7) "trade_executed").count 7 = 1) :=
  ⟨List.nodup_nil, C9_subscribe_idempotent Bot404.emptyBus "trade_executed" 7 List.nodup_nil⟩

/-- C10: when gas estimation raises, `estimate_transaction_cost` swallows
the error and returns a cost of `0.0`; `is_transaction_profitable` then
compares the expected profit against `0 * 1.2 = 0`, so every strictly
positive expected profit is reported profitable. -/
theorem C10_gas_failure_zero_cost (e : String) (gasPrice : ℕ) (expected : ℚ)
    (hpos : 0 < expected) :
    Bot404.estimateTransactionCost (.error e) gasPrice = 0 ∧
    Bot404.isTransactionProfitable (.error e) gasPrice expected = true := by
  refine ⟨rfl, ?_⟩
  unfold Bot404.isTransactionProfitable Bot404.estimateTransactionCost
  rw [decide_eq_true_iff]
  simpa using hpos

/-- C10 (witness): a 0.001 ETH expected profit passes the gate when gas
estimation failed. -/
theorem C10_gas_failure_witness :
    (0 < (1 : ℚ) / 1000) ∧
    Bot404.estimateTransactionCost (.error "execution reverted") 50 = 0 ∧
    Bot404.isTransactionProfitable (.error "execution reverted") 50 (1 / 1000) = true :=
  ⟨by norm_num, (C10_gas_failure_zero_cost "execution reverted" 50 (1 / 1000) (by norm_num)).1,
    (C10_gas_failure_zero_cost "execution reverted" 50 (1 / 1000) (by norm_num)).2⟩

/-- C7: whenever `_update_parameters` actually recomputes (some execution
history exists), the new minimum-profit threshold lies within
`[0.5 * base, 3 * base]` of the configured base threshold — for any
combination of slippage, success-rate and profit-realization data — and the
new slippage tolerance equals `1.5x` the recent mean observed slippage
clamped to `[0.5 * base_tolerance, 3 * base_tolerance]`. -/
theorem C7_threshold_clamped (baseThreshold baseTolerance curThreshold curTolerance : ℚ)
    (histories : List (List Bot404.ExecRecord)) (hb : 0 ≤ baseThreshold)
    (hdata : Bot404.hasRecomputeData histories = true) :
    baseThreshold * (1 / 2) ≤
      (Bot404.updateParameters baseThreshold baseTolerance curThreshold curTolerance
        histories).1 ∧
    (Bot404.updateParameters baseThreshold baseTolerance curThreshold curTolerance
        histories).1 ≤ baseThreshold * 3 ∧
    (Bot404.updateParameters baseThreshold baseTolerance curThreshold curTolerance
        histories).2 =
      max (baseTolerance * (1 / 2))
        (min (Bot404.meanRecentSlippage histories * (3 / 2)) (baseTolerance * 3)) := by
  unfold Bot404.updateParameters
  rw [if_pos hdata]
  dsimp only
  refine ⟨le_max_left _ _, ?_, rfl⟩
  apply max_le
  · linarith
  · exact min_le_right _ _

/-- C7 (witness): one strategy with a single fully-successful record
(slippage 1, realized = expected) against base threshold 2 and base
tolerance 4. -/
theorem C7_threshold_witness :
    (0 ≤ (2 : ℚ)) ∧
    Bot404.hasRecomputeData [[⟨some 1, true, 1, some 1⟩]] = true ∧
    ((2 : ℚ) * (1 / 2) ≤
      (Bot404.updateParameters 2 4 0 0 [[⟨some 1, true, 1, some 1⟩]]).1 ∧
    (Bot404.updateParameters 2 4 0 0 [[⟨some 1, true, 1, some 1⟩]]).1 ≤ 2 * 3 ∧
    (Bot404.updateParameters 2 4 0 0 [[⟨some 1, true, 1, some 1⟩]]).2 =
      max ((4 : ℚ) * (1 / 2))
        (min (Bot404.meanRecentSlippage [[⟨some 1, true, 1, some 1⟩]] * (3 / 2)) (4 * 3))) :=
  ⟨by norm_num, rfl, C7_threshold_clamped 2 4 0 0 [[⟨some 1, true, 1, some 1⟩]]
    (by norm_num) rfl⟩

/-- C8: for every sample set of size at least 10 evaluated with a cold
cache, the tier estimates are monotone: `economic` (25th percentile) is at
most `balanced` (median), which is at most `fast` (90th percentile), each
after the 5% buffer and the 1 Gwei floor. -/
theorem C8_tier_monotone (now : ℚ) (gasPrice : ℕ) (samples : List ℕ)
    (h10 : 10 ≤ samples.length) :
    (Bot404.getOptimalGasPrice ⟨none, 0⟩ now "economic" (.ok (gasPrice, samples))).1 ≤
      (Bot404.getOptimalGasPrice ⟨none, 0⟩ now "balanced" (.ok (gasPrice, samples))).1 ∧
    (Bot404.getOptimalGasPrice ⟨none, 0⟩ now "balanced" (.ok (gasPrice, samples))).1 ≤
      (Bot404.getOptimalGasPrice ⟨none, 0⟩ now "fast" (.ok (gasPrice, samples))).1 := by
  rw [Bot404.getOptimalGasPrice_cold now "economic" gasPrice samples h10,
    Bot404.getOptimalGasPrice_cold now "balanced" gasPrice samples h10,
    Bot404.getOptimalGasPrice_cold now "fast" gasPrice samples h10]
  have hs := Bot404.sortSamples_sorted samples
  have hn : 10 ≤ (Bot404.sortSamples samples).length := by
    rw [Bot404.sortSamples_length]
    exact h10
  have h25 := Bot404.percentile25_le_medianTwice _ hs hn
  have h90 := Bot404.medianTwice_le_percentile90 _ hs hn
  rw [Bot404.statGasPrice_fast_eq, Bot404.statGasPrice_econ_eq, Bot404.statGasPrice_bal_eq]
  constructor
  · exact max_le_max (by omega) le_rfl
  · exact max_le_max (by omega) le_rfl

/-- C8 (witness): ten Gwei-scale samples give estimates 3.15, 5.775 and
10.5 Gwei for `economic`, `balanced` and `fast`. -/
theorem C8_tier_witness :
    (10 ≤ ([1, 2, 3, 4, 5, 6, 7, 8, 9, 10].map (· * 10 ^ 9) : List ℕ).length) ∧
    ((Bot404.getOptimalGasPrice ⟨none, 0⟩ 0 "economic"
        (.ok (0, [1, 2, 3, 4, 5, 6, 7, 8, 9, 10].map (· * 10 ^ 9)))).1 ≤
      (Bot404.getOptimalGasPrice ⟨none, 0⟩ 0 "balanced"
        (.ok (0, [1, 2, 3, 4, 5, 6, 7, 8, 9, 10].map (· * 10 ^ 9)))).1 ∧
    (Bot404.getOptimalGasPrice ⟨none, 0⟩ 0 "balanced"
        (.ok (0, [1, 2, 3, 4, 5, 6, 7, 8, 9, 10].map (· * 10 ^ 9)))).1 ≤
      (Bot404.getOptimalGasPrice ⟨none, 0⟩ 0 "fast"
        (.ok (0, [1, 2, 3, 4, 5, 6, 7, 8, 9, 10].map (· * 10 ^ 9)))).1) :=
  ⟨by decide, C8_tier_monotone 0 0 ([1, 2, 3, 4, 5, 6, 7, 8, 9, 10].map (· * 10 ^ 9))
    (by decide)⟩

/-- C4 (amended): across any feed/classification interleaving, the dedup
set never holds more than 10000 entries, and as long as the over-cap
eviction has not fired, every transaction hash is classified and published
at most once no matter how often the feed repeats it.  Once eviction has
discarded a hash, a re-observation is published again (see the
counterexample), so the at-most-once guarantee is per residence in the
dedup structures, not global. -/
theorem C4_dedup_amended (classify : ℕ → Option Bool) (evs : List Bot404.MonitorEvent)
    (h : ℕ) :
    (Bot404.monitorRun classify evs).processed.length ≤ 10000 ∧
      ((Bot404.monitorRun classify evs).evictions = 0 →
        (Bot404.monitorRun classify evs).published.count h ≤ 1) := by
  have hi := Bot404.monInv_run classify h evs Bot404.monitorInit (Bot404.monInv_init h)
  exact ⟨hi.1, fun hev => (hi.2.2 hev).1⟩

/-- C4 (counterexample): the at-most-once guarantee is not unconditional.
On the script that observes hash 0, then floods 10000 fresh hashes (1 to
10000) so that the dedup set passes 10000 entries and evicts its oldest
half — including hash 0 — and then observes hash 0 again, hash 0 is
classified and published twice. -/
theorem C4_counterexample :
    ¬ ((Bot404.monitorRun Bot404.allInteresting Bot404.c4Script).published.count 0 ≤ 1) := by
  have h1 : (Bot404.obsBatch 0).foldl (Bot404.monitorStep Bot404.allInteresting)
      Bot404.monitorInit = ⟨[], [0], [0], 1, 1, 0⟩ := by
    rw [Bot404.foldl_obsBatch_fresh Bot404.monitorInit 0 rfl (by simp [Bot404.monitorInit])
      (by simp [Bot404.monitorInit])]
    rfl
  have h2 : (Bot404.freshFeed 1 9999).foldl (Bot404.monitorStep Bot404.allInteresting)
      (⟨[], [0], [0], 1, 1, 0⟩ : Bot404.MonitorState)
      = ⟨[], List.range' 0 10000, List.range' 0 10000, 10000, 10000, 0⟩ := by
    rw [Bot404.foldl_freshFeed 9999 1 ⟨[], [0], [0], 1, 1, 0⟩ rfl
      (by intro y hy1 hy2 hm; simp at hm; omega) (by decide)]
    have hR : (0 : ℕ) :: List.range' 1 9999 = List.range' 0 10000 :=
      (List.range'_succ 0 9999 1).symm
    show (⟨[], (0 : ℕ) :: List.range' 1 9999, (0 : ℕ) :: List.range' 1 9999,
      10000, 10000, 0⟩ : Bot404.MonitorState) = _
    rw [hR]
  have h3 : (Bot404.obsBatch 10000).foldl (Bot404.monitorStep Bot404.allInteresting)
      (⟨[], List.range' 0 10000, List.range' 0 10000, 10000, 10000, 0⟩ : Bot404.MonitorState)
      = ⟨[], List.range' 5001 5000, List.range' 0 10001, 10001, 10001, 1⟩ := by
    have hlen : (List.range' (0 : ℕ) 10000).length = 10000 := by simp
    rw [Bot404.foldl_obsBatch_evict _ 10000 rfl
      (by rw [List.mem_range'_1]; omega) (by rw [hlen]; omega)]
    have hQ : List.range' 0 10000 ++ [10000] = List.range' 0 10001 := by
      have h := List.range'_append 0 10000 1 1
      norm_num at h
      exact h
    have hdrop : (List.range' (0 : ℕ) 10000 ++ [10000]).drop
        ((List.range' (0 : ℕ) 10000).length + 1 - 5000) = List.range' 5001 5000 := by
      rw [hQ, hlen]
      show (List.range' (0 : ℕ) 10001).drop 5001 = List.range' 5001 5000
      rw [Bot404.drop_range' 10001 5001 0]
    rw [hdrop, hQ]
  have h4 : (Bot404.obsBatch 0).foldl (Bot404.monitorStep Bot404.allInteresting)
      (⟨[], List.range' 5001 5000, List.range' 0 10001, 10001, 10001, 1⟩ : Bot404.MonitorState)
      = ⟨[], List.range' 5001 5000 ++ [0], List.range' 0 10001 ++ [0], 10002, 10002, 1⟩ := by
    have hlen : (List.range' (5001 : ℕ) 5000).length = 5000 := by simp
    rw [Bot404.foldl_obsBatch_fresh _ 0 rfl
      (by rw [List.mem_range'_1]; omega) (by rw [hlen]; omega)]
  have hrun : Bot404.monitorRun Bot404.allInteresting Bot404.c4Script =
      ⟨[], List.range' 5001 5000 ++ [0], List.range' 0 10001 ++ [0], 10002, 10002, 1⟩ := by
    show List.foldl (Bot404.monitorStep Bot404.allInteresting) Bot404.monitorInit
      (Bot404.obsBatch 0 ++ (Bot404.freshFeed 1 9999 ++
        (Bot404.obsBatch 10000 ++ Bot404.obsBatch 0))) = _
    rw [List.foldl_append, List.foldl_append, List.foldl_append, h1, h2, h3, h4]
  rw [hrun]
  show ¬ ((List.range' 0 10001 ++ [0]).count 0 ≤ 1)
  have hnd : (List.range' (0 : ℕ) 10001).Nodup := by simp [List.nodup_range']
  have h01 : (List.range' (0 : ℕ) 10001).count 0 = 1 :=
    List.count_eq_one_of_mem hnd (by rw [List.mem_range'_1]; omega)
  rw [List.count_append, h01]
  norm_num

/-- C4 (witness): hash 5 observed twice around one classification batch is
published exactly once; no eviction fires. -/
theorem C4_dedup_witness :
    (Bot404.monitorRun Bot404.allInteresting
      [.obs 5, .batch, .obs 5, .batch]).processed.length ≤ 10000 ∧
    (Bot404.monitorRun Bot404.allInteresting
      [.obs 5, .batch, .obs 5, .batch]).evictions = 0 ∧
    (Bot404.monitorRun Bot404.allInteresting
      [.obs 5, .batch, .obs 5, .batch]).published.count 5 ≤ 1 :=
  ⟨(C4_dedup_amended Bot404.allInteresting [.obs 5, .batch, .obs 5, .batch] 5).1,
    by decide,
    (C4_dedup_amended Bot404.allInteresting [.obs 5, .batch, .obs 5, .batch] 5).2 (by decide)⟩

end Bot404
